import Mathlib

/-!
Verification development for the dnf-extra-tests repository.

The repository is a behave acceptance-test harness, in Python, for the dnf
package manager.  The code that the claims below concern lives in
features/environment.py (scenario fixtures, temporary-state helper classes,
process-runner command assembly) and features/steps/steps.py (step
implementations and the repository-content assertion).

The embedding models the filesystem as an association list from paths
(component lists) to entries (directories or files with string content),
models each Python helper as an explicit state-passing function translated
from the source, and models the external dnf and rpm executables as
parameters: a Boolean telling whether an invoked command succeeded, and, for
the repository query, an oracle from assembled command lines to output lines.
Commands that the code issues are also collected as traces of command lines
so that properties about which external command is invoked can be stated.
-/

/-- A filesystem path, as its list of components. -/
abbrev FsPath := List String

/-- A filesystem entry: a directory or a file with byte content
(modelled as a string). -/
inductive Entry where
  | dir : Entry
  | file : String → Entry
deriving DecidableEq

/-- The filesystem: an association list from paths to entries.  The first
entry with a given key wins, so insertion is cons. -/
abbrev Fs := List (FsPath × Entry)

/-- Look a path up in the filesystem. -/
def fsLookup : Fs → FsPath → Option Entry
  | [], _ => none
  | (q, e) :: rest, p => if q = p then some e else fsLookup rest p

/-- Create or overwrite an entry. -/
def fsInsert (fs : Fs) (p : FsPath) (e : Entry) : Fs := (p, e) :: fs

/-- Keep only the entries whose key satisfies the predicate. -/
def fsDeleteAll (fs : Fs) (keep : FsPath → Bool) : Fs :=
  match fs with
  | [] => []
  | (p, e) :: rest =>
    if keep p then (p, e) :: fsDeleteAll rest keep else fsDeleteAll rest keep

/-- Delete every entry at exactly the given path. -/
def fsErase (fs : Fs) (p : FsPath) : Fs := fsDeleteAll fs (fun q => q ≠ p)

/-- The errno values the modelled code can observe. -/
inductive Errno where
  | eexist | enoent | enotdir | eisdir
deriving DecidableEq

/-- The Python exceptions the modelled code raises or handles.  OSError and
IOError are merged into one errno-carrying constructor; the subprocess
CalledProcessError and the shutil Error get their own constructors. -/
inductive Err where
  | oserror : Errno → Err
  | valueError : String → Err
  | notImplementedError : String → Err
  | assertionError : String → Err
  | shutilError : Err
  | calledProcessError : Err
deriving DecidableEq

/-- The outcome of a filesystem-mutating call: a possible exception, plus the
filesystem afterwards (unchanged when the call failed before acting). -/
structure FsResult where
  res : Except Err Unit
  fs : Fs

/-- The outcome of a call that can also mutate an object or the behave
context of type σ. -/
structure StResult (σ : Type) where
  res : Except Err Unit
  st : σ
  fs : Fs

/-- Model of os.remove: deletes a file, ENOENT when absent, EISDIR on a
directory. -/
def os_remove (fs : Fs) (p : FsPath) : FsResult :=
  match fsLookup fs p with
  | some (.file _) => ⟨.ok (), fsErase fs p⟩
  | some .dir => ⟨.error (.oserror .eisdir), fs⟩
  | none => ⟨.error (.oserror .enoent), fs⟩

/-- Model of shutil.copyfile: raises shutil.Error when source and
destination are the same file, ENOENT when the source is missing, otherwise
copies the content. -/
def shutil_copyfile (fs : Fs) (src dst : FsPath) : FsResult :=
  if src = dst then ⟨.error .shutilError, fs⟩
  else
    match fsLookup fs src with
    | some (.file c) => ⟨.ok (), fsInsert fs dst (.file c)⟩
    | some .dir => ⟨.error (.oserror .eisdir), fs⟩
    | none => ⟨.error (.oserror .enoent), fs⟩

/-- Model of shutil.copy2 (metadata preservation is not observable in this
model, so it coincides with a plain content copy). -/
def shutil_copy2 (fs : Fs) (src dst : FsPath) : FsResult :=
  match fsLookup fs src with
  | some (.file c) => ⟨.ok (), fsInsert fs dst (.file c)⟩
  | some .dir => ⟨.error (.oserror .eisdir), fs⟩
  | none => ⟨.error (.oserror .enoent), fs⟩

/-- Model of shutil.rmtree: deletes a directory and everything below it,
ENOENT when absent, ENOTDIR on a file. -/
def shutil_rmtree (fs : Fs) (p : FsPath) : FsResult :=
  match fsLookup fs p with
  | some .dir => ⟨.ok (), fsDeleteAll fs (fun q => ! p.isPrefixOf q)⟩
  | some (.file _) => ⟨.error (.oserror .enotdir), fs⟩
  | none => ⟨.error (.oserror .enoent), fs⟩

/-- All strict ancestors of a path, shortest first. -/
def strictAncestors : FsPath → List FsPath
  | [] => []
  | [_] => []
  | x :: rest => [x] :: (strictAncestors rest).map (x :: ·)

/-- Whether a path is present as a file. -/
def isFileAt (fs : Fs) (q : FsPath) : Bool :=
  match fsLookup fs q with
  | some (.file _) => true
  | _ => false

/-- Create a directory at every listed path that is not present yet. -/
def addDirs (fs : Fs) (ps : List FsPath) : Fs :=
  match ps with
  | [] => fs
  | q :: rest =>
    match fsLookup fs q with
    | some _ => addDirs fs rest
    | none => addDirs (fsInsert fs q .dir) rest

/-- Model of os.makedirs: EEXIST when the target already exists (as a
directory or as a file), ENOTDIR when some strict ancestor is a file,
otherwise creates the target and all missing ancestors. -/
def os_makedirs (fs : Fs) (p : FsPath) : FsResult :=
  match fsLookup fs p with
  | some _ => ⟨.error (.oserror .eexist), fs⟩
  | none =>
    if (strictAncestors p).any (fun q => isFileAt fs q) then
      ⟨.error (.oserror .enotdir), fs⟩
    else
      ⟨.ok (), addDirs fs (strictAncestors p ++ [p])⟩

/-- Translation of environment.makedirs: call os.makedirs and re-raise
unless exist_ok is set, the error is EEXIST and the target is a directory. -/
def makedirs (fs : Fs) (name : FsPath) (exist_ok : Bool) : FsResult :=
  match os_makedirs fs name with
  | ⟨.ok u, fs2⟩ => ⟨.ok u, fs2⟩
  | ⟨.error e, fs2⟩ =>
    if exist_ok ∧ e = .oserror .eexist ∧ fsLookup fs name = some .dir then
      ⟨.ok (), fs⟩
    else ⟨.error e, fs2⟩

/-- Python truthiness of an optional string: None and the empty string are
falsy. -/
def pyStr : Option String → Bool
  | none => false
  | some s => s != ""

/-- Python list.insert(1, x): put x right after the head. -/
def insert1 (l : List String) (x : String) : List String :=
  match l with
  | [] => [x]
  | h :: t => h :: x :: t

/-- Translation of environment.run_dnf, reduced to the command line it
assembles: start from the dnf executable followed by the subcommand
arguments, then insert each set option at position 1, in the source order
releasever, quiet, installroot, enablerepo, disablerepo, config,
assumeyes. -/
def run_dnf_cmdline (args : List String) (configfn root releasever : Option String)
    (quiet assumeyes : Bool) (disablerepo enablerepo : Option String) : List String :=
  let c := "dnf" :: args
  let c := if pyStr releasever then insert1 c ("--releasever=" ++ releasever.getD "") else c
  let c := if quiet then insert1 c "--quiet" else c
  let c := if pyStr root then insert1 c ("--installroot=" ++ root.getD "") else c
  let c := if pyStr enablerepo then insert1 c ("--enablerepo=" ++ enablerepo.getD "") else c
  let c := if pyStr disablerepo then insert1 c ("--disablerepo=" ++ disablerepo.getD "") else c
  let c := if pyStr configfn then insert1 c ("--config=" ++ configfn.getD "") else c
  if assumeyes then insert1 c "--assumeyes" else c

/-- Translation of steps._run_repoquery, reduced to the command line it
assembles: the repoquery subcommand, with --repoid and the repository
inserted when a repository is given, handed to run_dnf. -/
def run_repoquery_cmdline (configfn repo root releasever : Option String)
    (quiet : Bool) : List String :=
  let args := if pyStr repo then ["repoquery", "--repoid", repo.getD ""] else ["repoquery"]
  run_dnf_cmdline args configfn root releasever quiet false none none

/-- The fixed repository identifier TempRepoConfig.REPOID. -/
def REPOID : String := "dnf-extra-tests"

/-- The command line run_dnf_clean_metadata assembles for the call made by
TempRepoConfig.remove: clean metadata, quiet, all repositories disabled
except the fixed identifier. -/
def clean_metadata_cmd : List String :=
  run_dnf_cmdline ["clean", "metadata"] none none none true false (some "*") (some REPOID)

/-- Translation of environment.repo_config: the composed repository
configuration file content.  Optional URL fields are emitted only when set
and nonempty (Python truthiness); gpgcheck is emitted whenever it is not
None. -/
def repo_config (baseurl metalink mirrorlist : Option String) (gpgcheck : Option Bool)
    (gpgkey : Option String) : String :=
  "[dnf-extra-tests]\nmetadata_expire=0\n"
  ++ (if pyStr baseurl then "baseurl=" ++ baseurl.getD "" ++ "\n" else "")
  ++ (if pyStr metalink then "metalink=" ++ metalink.getD "" ++ "\n" else "")
  ++ (if pyStr mirrorlist then "mirrorlist=" ++ mirrorlist.getD "" ++ "\n" else "")
  ++ (match gpgcheck with
      | none => ""
      | some b => "gpgcheck=" ++ (if b then "true" else "false") ++ "\n")
  ++ (if pyStr gpgkey then "gpgkey=" ++ gpgkey.getD "" ++ "\n" else "")

/-- The directory of static testing resources (environment.RESOURCESDN). -/
def RESOURCESDN : FsPath := ["features", "resources"]

/-- Translation of environment.TempResourceCopy: base name of the resource,
destination directory, and the private _filename attribute, None until
create succeeds. -/
structure TempResourceCopy where
  basename : String
  dirname : FsPath
  filename : Option FsPath
deriving DecidableEq

/-- Translation of TempResourceCopy.create: ensure the destination directory
exists (makedirs with exist_ok), copy the resource from the store with
shutil.copy2, then record the destination as _filename. -/
def TempResourceCopy.create (t : TempResourceCopy) (fs : Fs) : StResult TempResourceCopy :=
  let r1 := makedirs fs t.dirname true
  match r1.res with
  | .error e => ⟨.error e, t, r1.fs⟩
  | .ok _ =>
    let filename := t.dirname ++ [t.basename]
    let r2 := shutil_copy2 r1.fs (RESOURCESDN ++ [t.basename]) filename
    match r2.res with
    | .error e => ⟨.error e, t, r2.fs⟩
    | .ok _ => ⟨.ok (), { t with filename := some filename }, r2.fs⟩

/-- Translation of TempResourceCopy.remove: ValueError when _filename was
never set, otherwise os.remove on the recorded path.  The method never
reassigns _filename, so the returned object is the receiver unchanged. -/
def TempResourceCopy.remove (t : TempResourceCopy) (fs : Fs) : StResult TempResourceCopy :=
  match t.filename with
  | none => ⟨.error (.valueError "copy not created"), t, fs⟩
  | some f =>
    let r := os_remove fs f
    ⟨r.res, t, r.fs⟩

/-- Translation of environment.TempRepoConfig: the optional repository
fields, the optional destination directory, and the private _filename
attribute, None until add succeeds. -/
structure TempRepoConfig where
  baseurl : Option String
  metalink : Option String
  mirrorlist : Option String
  gpgcheck : Option Bool
  gpgkey : Option String
  dirname : Option FsPath
  filename : Option FsPath
deriving DecidableEq

/-- Translation of TempRepoConfig.add.  The destination directory is the
configured one, or the first repository directory reported by the dnf
configuration (an external input, passed as defaultReposdir); tmpbase stands
for the fresh base name that tempfile.NamedTemporaryFile picks for the .repo
file. -/
def TempRepoConfig.add (t : TempRepoConfig) (fs : Fs) (defaultReposdir : FsPath)
    (tmpbase : String) : StResult TempRepoConfig :=
  let configdn := t.dirname.getD defaultReposdir
  let r1 := makedirs fs configdn true
  match r1.res with
  | .error e => ⟨.error e, t, r1.fs⟩
  | .ok _ =>
    let f := configdn ++ [tmpbase]
    let fs2 := fsInsert r1.fs f
      (.file (repo_config t.baseurl t.metalink t.mirrorlist t.gpgcheck t.gpgkey))
    ⟨.ok (), { t with filename := some f }, fs2⟩

/-- The outcome of TempRepoConfig.remove: a possible exception, the object
afterwards, the filesystem afterwards, and the trace of external command
lines issued. -/
structure RepoRemoveResult where
  res : Except Err Unit
  st : TempRepoConfig
  fs : Fs
  cmds : List (List String)

/-- Translation of TempRepoConfig.remove: ValueError when _filename was
never set; otherwise run_dnf_clean_metadata restricted to REPOID is invoked
first, and the finally block then deletes the file and clears _filename.
cleanOk tells whether the external dnf command succeeded; when it failed
(CalledProcessError, or OSError for a missing executable, both collapsed
into one constructor here) the finally block still runs, and an error
raised by os.remove inside the finally block replaces the command error and
skips the reassignment of _filename, exactly as in the source. -/
def TempRepoConfig.remove (t : TempRepoConfig) (fs : Fs) (cleanOk : Bool) : RepoRemoveResult :=
  match t.filename with
  | none => ⟨.error (.valueError "repository not present"), t, fs, []⟩
  | some f =>
    let r := os_remove fs f
    match r.res with
    | .error e => ⟨.error e, t, r.fs, [clean_metadata_cmd]⟩
    | .ok _ =>
      ⟨if cleanOk then .ok () else .error .calledProcessError,
       { t with filename := none }, r.fs, [clean_metadata_cmd]⟩

/-- Conversion of an installroot string, as stored on the context, to a path
of this model. -/
def strToPath (s : String) : FsPath := (s.splitOn "/").filter (fun comp => comp != "")

/-- Translation of the behave context attributes documented in the
environment module: the configuration file name, the backup file name, the
two temporary-state handles, and the option override fields. -/
structure Context where
  configfn : FsPath
  backupfn : Option FsPath
  temp_resource : Option TempResourceCopy
  temp_repo : Option TempRepoConfig
  config_option : Option String
  releasever_option : Option String
  installroot_option : Option String
  pluginpath_option : Option String
deriving DecidableEq

/-- Translation of environment.before_scenario: reset temp_resource,
temp_repo, config_option, releasever_option and installroot_option, record
the configuration file path reported by the dnf library (an external input,
passed as dnfConfigPath), create the backup file with
tempfile.NamedTemporaryFile (its fresh name passed as backupPath), copy the
configuration into it, record it as backupfn, and truncate the
configuration file.  When the configuration file cannot be opened the error
propagates after the field resets and the creation of the (empty) backup
file. -/
def before_scenario (ctx : Context) (fs : Fs) (dnfConfigPath backupPath : FsPath) :
    StResult Context :=
  let ctx1 := { ctx with
    temp_resource := none, temp_repo := none, config_option := none,
    releasever_option := none, installroot_option := none,
    configfn := dnfConfigPath }
  let fs1 := fsInsert fs backupPath (.file "")
  match fsLookup fs1 dnfConfigPath with
  | some (.file c) =>
    let fs2 := fsInsert fs1 backupPath (.file c)
    let fs3 := fsInsert fs2 dnfConfigPath (.file "")
    ⟨.ok (), { ctx1 with backupfn := some backupPath }, fs3⟩
  | some .dir => ⟨.error (.oserror .eisdir), ctx1, fs1⟩
  | none => ⟨.error (.oserror .enoent), ctx1, fs1⟩

/-- Second half of the configuration-restore step of after_scenario: delete
the backup file and, when that deletion succeeded, clear backupfn. -/
def restore_finish (ctx : Context) (b : FsPath) (fs : Fs) : StResult Context :=
  let r := os_remove fs b
  match r.res with
  | .error e => ⟨.error e, ctx, r.fs⟩
  | .ok _ => ⟨.ok (), { ctx with backupfn := none }, r.fs⟩

/-- Configuration-restore step of after_scenario: when backupfn is set, copy
the backup back over the configuration file, suppressing only shutil.Error,
then delete the backup and clear backupfn. -/
def restore_config_step (ctx : Context) (fs : Fs) : StResult Context :=
  match ctx.backupfn with
  | none => ⟨.ok (), ctx, fs⟩
  | some b =>
    let r := shutil_copyfile fs b ctx.configfn
    match r.res with
    | .ok _ => restore_finish ctx b r.fs
    | .error e =>
      if e = .shutilError then restore_finish ctx b r.fs
      else ⟨.error e, ctx, r.fs⟩

/-- Temporary-resource step of after_scenario: when temp_resource is set,
call its remove method.  The context field is not reassigned. -/
def remove_resource_step (ctx : Context) (fs : Fs) : StResult Context :=
  match ctx.temp_resource with
  | none => ⟨.ok (), ctx, fs⟩
  | some tr =>
    let r := tr.remove fs
    ⟨r.res, ctx, r.fs⟩

/-- Temporary-repository step of after_scenario: when temp_repo is set, call
its remove method; the object it holds is mutated in place. -/
def remove_repo_step (ctx : Context) (fs : Fs) (cleanOk : Bool) : StResult Context :=
  match ctx.temp_repo with
  | none => ⟨.ok (), ctx, fs⟩
  | some rp =>
    let r := rp.remove fs cleanOk
    ⟨r.res, { ctx with temp_repo := some r.st }, r.fs⟩

/-- Install-root step of after_scenario: when installroot_option is truthy,
recursively delete that tree. -/
def remove_root_step (ctx : Context) (fs : Fs) : StResult Context :=
  match ctx.installroot_option with
  | none => ⟨.ok (), ctx, fs⟩
  | some s =>
    if s = "" then ⟨.ok (), ctx, fs⟩
    else
      let r := shutil_rmtree fs (strToPath s)
      ⟨r.res, ctx, r.fs⟩

/-- Sequencing of the teardown statements: a raised error propagates at
once, so the continuation runs only when the previous statement finished
normally. -/
def andThen (r : StResult Context) (f : Context → Fs → StResult Context) :
    StResult Context :=
  match r.res with
  | .error _ => r
  | .ok _ => f r.st r.fs

/-- Translation of environment.after_scenario: restore the configuration
from the backup, remove the temporary resource copy, remove the temporary
repository configuration, delete the install root; the four statements run
in source order with no exception handling between them. -/
def after_scenario (ctx : Context) (fs : Fs) (cleanOk : Bool) : StResult Context :=
  andThen (restore_config_step ctx fs) (fun c1 f1 =>
    andThen (remove_resource_step c1 f1) (fun c2 f2 =>
      andThen (remove_repo_step c2 f2 cleanOk) remove_root_step))

/-- A behave examples table: its headings row and its data rows, each a
pair of cells. -/
structure Table where
  headings : List String
  rows : List (String × String)
deriving DecidableEq

/-- Row loop of steps._configure_dnf_cli: each recognized option updates its
context field; any other option name raises NotImplementedError. -/
def configure_rows (ctx : Context) : List (String × String) → Except Err Context
  | [] => .ok ctx
  | (o, v) :: rest =>
    if o = "--config" then configure_rows { ctx with config_option := some v } rest
    else if o = "--releasever" then configure_rows { ctx with releasever_option := some v } rest
    else if o = "--installroot" then configure_rows { ctx with installroot_option := some v } rest
    else .error (.notImplementedError "configuration not supported")

/-- Translation of steps._configure_dnf_cli: ValueError without a table,
NotImplementedError unless the headings are exactly Option and Value, then
the row loop. -/
def configure_dnf_cli (ctx : Context) (table : Option Table) : Except Err Context :=
  match table with
  | none => .error (.valueError "table not found")
  | some t =>
    if t.headings = ["Option", "Value"] then configure_rows ctx t.rows
    else .error (.notImplementedError "configuration format not supported")

/-- Translation of steps._test_repo_equals_dir.  The external repoquery
invocation is modelled by an oracle from the assembled command line to its
output lines (None standing for CalledProcessError, turned into ValueError
by the source), and the createrepo metadata load of the on-disk directory by
an oracle from the directory name to the package identifier listing (None
standing for a load failure, turned into ValueError).  The final assertion
compares the two listings as lists, element by element in order. -/
def test_repo_equals_dir (query : List String → Option (List String))
    (loadDir : String → Option (List String)) (repoid : String)
    (reporoot reporelease : Option String) (dirname msg : String)
    (dnfconfig : Option String) : Except Err Unit :=
  match query (run_repoquery_cmdline dnfconfig (some repoid) reporoot reporelease true) with
  | none => .error (.valueError "repo query failed")
  | some out =>
    match loadDir dirname with
    | none => .error (.valueError "directory query failed")
    | some nevras => if out = nevras then .ok () else .error (.assertionError msg)

/-- A context with no backup, no temporary state and no overrides, at the
usual dnf configuration path. -/
def emptyCtx : Context :=
  ⟨["etc", "dnf", "dnf.conf"], none, none, none, none, none, none, none⟩

/-- A temporary resource copy whose recorded file is missing from the
filesystem below; removing it raises ENOENT. -/
def tr2ce : TempResourceCopy := ⟨"r.txt", ["tmp"], some ["tmp", "r.txt"]⟩

/-- A temporary repository configuration whose file does exist on the
filesystem below, so its removal would succeed. -/
def rp2ce : TempRepoConfig :=
  ⟨none, none, none, none, none, none, some ["etc", "yum.repos.d", "x.repo"]⟩

/-- A scenario context at teardown holding both temporary handles. -/
def ctx2ce : Context :=
  { emptyCtx with temp_resource := some tr2ce, temp_repo := some rp2ce }

/-- A filesystem holding the repository configuration file but not the
resource copy. -/
def fs2ce : Fs := [(["etc", "yum.repos.d", "x.repo"], .file "repo")]

/-- A context carrying a plugins-directory override into scenario setup. -/
def ctx4ce : Context := { emptyCtx with pluginpath_option := some "/plug" }

/-- A filesystem holding only the configuration file. -/
def fs4ce : Fs := [(["etc", "dnf", "dnf.conf"], .file "orig")]

/-- The backup file name picked by tempfile in the concrete runs below. -/
def bak4 : FsPath := ["etc", "dnf", "dnf.conf.bak1"]

/-- The post-scenario context of the concrete C1 run: the backup recorded,
no temporary state created by the scenario body. -/
def ctx1w : Context := { emptyCtx with backupfn := some bak4 }

/-- The post-scenario filesystem of the concrete C1 run: exactly the
filesystem scenario setup produced. -/
def fs1w : Fs := (before_scenario emptyCtx fs4ce emptyCtx.configfn bak4).fs

/-- A temporary resource copy that was never created. -/
def tr5w : TempResourceCopy := ⟨"dnf-extra-tests.py", ["usr", "lib", "plugins"], none⟩

/-- A temporary repository configuration that was added: its file is
recorded and present in the filesystem below. -/
def rp6w : TempRepoConfig :=
  ⟨some "file:///r", none, none, none, none, none, some ["etc", "yum.repos.d", "t.repo"]⟩

/-- A filesystem holding the added repository configuration file. -/
def fs6w : Fs := [(["etc", "yum.repos.d", "t.repo"], .file "conf")]

/-- A temporary repository configuration that was never added. -/
def rp6w' : TempRepoConfig := ⟨none, none, none, none, none, none, none⟩

/-- A filesystem with one directory and one file at top level, for the
directory-creation helper. -/
def fs7w : Fs := [(["a"], .dir), (["b"], .file "z")]

/-- A temporary resource copy that was created: its file is recorded and
present in the filesystem below. -/
def tr10w : TempResourceCopy := ⟨"metalink.xml", ["srv", "m"], some ["srv", "m", "metalink.xml"]⟩

/-- A filesystem holding the created resource copy. -/
def fs10w : Fs := [(["srv", "m", "metalink.xml"], .file "<xml>")]

theorem fsLookup_insert_self (fs : Fs) (p : FsPath) (e : Entry) :
    fsLookup (fsInsert fs p e) p = some e := by
  simp [fsInsert, fsLookup]

theorem fsLookup_insert_ne (fs : Fs) (p q : FsPath) (e : Entry) (h : p ≠ q) :
    fsLookup (fsInsert fs p e) q = fsLookup fs q := by
  simp [fsInsert, fsLookup, h]

theorem fsLookup_deleteAll_keepTrue (fs : Fs) (keep : FsPath → Bool) (q : FsPath)
    (h : keep q = true) :
    fsLookup (fsDeleteAll fs keep) q = fsLookup fs q := by
  induction fs with
  | nil => rfl
  | cons pe rest ih =>
    obtain ⟨p, e⟩ := pe
    cases hk : keep p with
    | true => by_cases hpq : p = q <;> simp [fsDeleteAll, fsLookup, hk, hpq, ih, h]
    | false =>
      have hpq : p ≠ q := by
        intro hEq
        rw [hEq, h] at hk
        exact Bool.noConfusion hk
      simp [fsDeleteAll, fsLookup, hk, hpq, ih]

theorem fsLookup_deleteAll_keepFalse (fs : Fs) (keep : FsPath → Bool) (q : FsPath)
    (h : keep q = false) :
    fsLookup (fsDeleteAll fs keep) q = none := by
  induction fs with
  | nil => rfl
  | cons pe rest ih =>
    obtain ⟨p, e⟩ := pe
    cases hk : keep p with
    | true =>
      have hpq : p ≠ q := by
        intro hEq
        rw [hEq, h] at hk
        exact Bool.noConfusion hk
      simp [fsDeleteAll, fsLookup, hk, hpq, ih]
    | false => simp [fsDeleteAll, hk, ih]

theorem fsLookup_deleteAll_none (fs : Fs) (keep : FsPath → Bool) (q : FsPath)
    (h : fsLookup fs q = none) :
    fsLookup (fsDeleteAll fs keep) q = none := by
  cases hk : keep q with
  | true => rw [fsLookup_deleteAll_keepTrue fs keep q hk]; exact h
  | false => exact fsLookup_deleteAll_keepFalse fs keep q hk

theorem fsLookup_erase_self (fs : Fs) (p : FsPath) :
    fsLookup (fsErase fs p) p = none :=
  fsLookup_deleteAll_keepFalse fs _ p (by simp)

theorem fsLookup_erase_ne (fs : Fs) (p q : FsPath) (h : q ≠ p) :
    fsLookup (fsErase fs p) q = fsLookup fs q :=
  fsLookup_deleteAll_keepTrue fs _ q (by simp [h])

theorem addDirs_preserves_some (fs : Fs) (ps : List FsPath) (r : FsPath) (e : Entry)
    (h : fsLookup fs r = some e) :
    fsLookup (addDirs fs ps) r = some e := by
  induction ps generalizing fs with
  | nil => exact h
  | cons q rest ih =>
    cases hq : fsLookup fs q with
    | some e2 =>
      simp only [addDirs, hq]
      exact ih fs h
    | none =>
      have hqr : q ≠ r := by
        intro hEq
        rw [hEq, h] at hq
        exact Option.noConfusion hq
      simp only [addDirs, hq]
      refine ih _ ?_
      rw [fsLookup_insert_ne fs q r _ hqr]
      exact h

theorem addDirs_mem_dir (fs : Fs) (ps : List FsPath)
    (h : ∀ q ∈ ps, fsLookup fs q = none ∨ fsLookup fs q = some .dir) :
    ∀ q ∈ ps, fsLookup (addDirs fs ps) q = some .dir := by
  induction ps generalizing fs with
  | nil => intro q hq; exact absurd hq (List.not_mem_nil q)
  | cons a rest ih =>
    intro q hq
    cases ha : fsLookup fs a with
    | some e =>
      have had : e = .dir := by
        rcases h a (List.mem_cons_self a rest) with h1 | h1
        · rw [ha] at h1; exact Option.noConfusion h1
        · rw [ha] at h1; exact Option.some.inj h1
      simp only [addDirs, ha]
      rcases List.mem_cons.mp hq with hq1 | hq1
      · subst hq1
        exact addDirs_preserves_some fs rest q .dir (by rw [ha, had])
      · exact ih fs (fun r hr => h r (List.mem_cons_of_mem a hr)) q hq1
    | none =>
      simp only [addDirs, ha]
      rcases List.mem_cons.mp hq with hq1 | hq1
      · subst hq1
        exact addDirs_preserves_some _ rest q .dir (fsLookup_insert_self fs q .dir)
      · refine ih _ (fun r hr => ?_) q hq1
        by_cases har : a = r
        · subst har
          right
          exact fsLookup_insert_self fs a .dir
        · rw [fsLookup_insert_ne fs a r _ har]
          exact h r (List.mem_cons_of_mem a hr)

theorem before_scenario_eq (ctx : Context) (fs : Fs) (cfg b : FsPath) (c : String)
    (hcfg : fsLookup fs cfg = some (.file c)) (hb : b ≠ cfg) :
    before_scenario ctx fs cfg b =
      ⟨.ok (),
       { ctx with temp_resource := none, temp_repo := none, config_option := none,
                  releasever_option := none, installroot_option := none,
                  configfn := cfg, backupfn := some b },
       fsInsert (fsInsert (fsInsert fs b (.file "")) b (.file c)) cfg (.file "")⟩ := by
  unfold before_scenario
  have h1 : fsLookup (fsInsert fs b (.file "")) cfg = some (.file c) := by
    rw [fsLookup_insert_ne fs b cfg _ hb]
    exact hcfg
  simp only [h1]

theorem restore_config_step_eq (ctx : Context) (fs : Fs) (b : FsPath) (c : String)
    (hbk : ctx.backupfn = some b) (hne : b ≠ ctx.configfn)
    (hc : fsLookup fs b = some (.file c)) :
    restore_config_step ctx fs =
      ⟨.ok (), { ctx with backupfn := none },
       fsErase (fsInsert fs ctx.configfn (.file c)) b⟩ := by
  have h2 : fsLookup (fsInsert fs ctx.configfn (.file c)) b = some (.file c) := by
    rw [fsLookup_insert_ne _ _ _ _ (Ne.symm hne)]
    exact hc
  simp only [restore_config_step, hbk, shutil_copyfile, if_neg hne, hc, restore_finish,
    os_remove, h2]

theorem remove_resource_step_st (ctx : Context) (fs : Fs) :
    (remove_resource_step ctx fs).st = ctx := by
  cases h : ctx.temp_resource with
  | none => simp [remove_resource_step, h]
  | some tr => simp [remove_resource_step, h]

theorem remove_resource_step_fs_pres (ctx : Context) (fs : Fs) (q : FsPath)
    (h : ∀ tr, ctx.temp_resource = some tr → tr.filename ≠ some q) :
    fsLookup (remove_resource_step ctx fs).fs q = fsLookup fs q := by
  cases htr : ctx.temp_resource with
  | none => simp [remove_resource_step, htr]
  | some tr =>
    simp only [remove_resource_step, htr]
    cases hf : tr.filename with
    | none => simp [TempResourceCopy.remove, hf]
    | some f =>
      have hfq : f ≠ q := by
        intro hEq
        exact h tr htr (by rw [hf, hEq])
      simp only [TempResourceCopy.remove, hf]
      unfold os_remove
      cases hl : fsLookup fs f with
      | none => simp
      | some e =>
        cases e with
        | dir => simp
        | file c => simp [fsLookup_erase_ne fs f q (Ne.symm hfq)]

theorem remove_resource_step_none_pres (ctx : Context) (fs : Fs) (q : FsPath)
    (h : fsLookup fs q = none) :
    fsLookup (remove_resource_step ctx fs).fs q = none := by
  cases htr : ctx.temp_resource with
  | none => simp [remove_resource_step, htr, h]
  | some tr =>
    simp only [remove_resource_step, htr]
    cases hf : tr.filename with
    | none => simp [TempResourceCopy.remove, hf, h]
    | some f =>
      simp only [TempResourceCopy.remove, hf]
      unfold os_remove
      cases hl : fsLookup fs f with
      | none => simp [h]
      | some e =>
        cases e with
        | dir => simp [h]
        | file c => simp [fsErase, fsLookup_deleteAll_none fs _ q h]

theorem remove_repo_step_backupfn (ctx : Context) (fs : Fs) (cleanOk : Bool) :
    (remove_repo_step ctx fs cleanOk).st.backupfn = ctx.backupfn := by
  cases h : ctx.temp_repo with
  | none => simp [remove_repo_step, h]
  | some rp => simp [remove_repo_step, h]

theorem remove_repo_step_installroot (ctx : Context) (fs : Fs) (cleanOk : Bool) :
    (remove_repo_step ctx fs cleanOk).st.installroot_option = ctx.installroot_option := by
  cases h : ctx.temp_repo with
  | none => simp [remove_repo_step, h]
  | some rp => simp [remove_repo_step, h]

theorem remove_repo_step_fs_pres (ctx : Context) (fs : Fs) (cleanOk : Bool) (q : FsPath)
    (h : ∀ rp, ctx.temp_repo = some rp → rp.filename ≠ some q) :
    fsLookup (remove_repo_step ctx fs cleanOk).fs q = fsLookup fs q := by
  cases hrp : ctx.temp_repo with
  | none => simp [remove_repo_step, hrp]
  | some rp =>
    simp only [remove_repo_step, hrp]
    cases hf : rp.filename with
    | none => simp [TempRepoConfig.remove, hf]
    | some f =>
      have hfq : f ≠ q := by
        intro hEq
        exact h rp hrp (by rw [hf, hEq])
      simp only [TempRepoConfig.remove, hf]
      unfold os_remove
      cases hl : fsLookup fs f with
      | none => simp
      | some e =>
        cases e with
        | dir => simp
        | file c => simp [fsLookup_erase_ne fs f q (Ne.symm hfq)]

theorem remove_repo_step_none_pres (ctx : Context) (fs : Fs) (cleanOk : Bool) (q : FsPath)
    (h : fsLookup fs q = none) :
    fsLookup (remove_repo_step ctx fs cleanOk).fs q = none := by
  cases hrp : ctx.temp_repo with
  | none => simp [remove_repo_step, hrp, h]
  | some rp =>
    simp only [remove_repo_step, hrp]
    cases hf : rp.filename with
    | none => simp [TempRepoConfig.remove, hf, h]
    | some f =>
      simp only [TempRepoConfig.remove, hf]
      unfold os_remove
      cases hl : fsLookup fs f with
      | none => simp [h]
      | some e =>
        cases e with
        | dir => simp [h]
        | file c => simp [fsErase, fsLookup_deleteAll_none fs _ q h]

theorem remove_root_step_st (ctx : Context) (fs : Fs) :
    (remove_root_step ctx fs).st = ctx := by
  cases h : ctx.installroot_option with
  | none => simp [remove_root_step, h]
  | some s =>
    by_cases hs : s = "" <;> simp [remove_root_step, h, hs]

theorem remove_root_step_fs_pres (ctx : Context) (fs : Fs) (q : FsPath)
    (h : ∀ s, ctx.installroot_option = some s → (strToPath s).isPrefixOf q = false) :
    fsLookup (remove_root_step ctx fs).fs q = fsLookup fs q := by
  cases hs : ctx.installroot_option with
  | none => simp [remove_root_step, hs]
  | some s =>
    simp only [remove_root_step, hs]
    by_cases hempty : s = ""
    · simp [hempty]
    · simp only [if_neg hempty]
      unfold shutil_rmtree
      cases hl : fsLookup fs (strToPath s) with
      | none => simp
      | some e =>
        cases e with
        | file c => simp
        | dir =>
          have hkeep : (fun r => ! (strToPath s).isPrefixOf r) q = true := by
            simp [h s hs]
          simpa using fsLookup_deleteAll_keepTrue fs (fun r => ! (strToPath s).isPrefixOf r) q hkeep

theorem remove_root_step_none_pres (ctx : Context) (fs : Fs) (q : FsPath)
    (h : fsLookup fs q = none) :
    fsLookup (remove_root_step ctx fs).fs q = none := by
  cases hs : ctx.installroot_option with
  | none => simp [remove_root_step, hs, h]
  | some s =>
    simp only [remove_root_step, hs]
    by_cases hempty : s = ""
    · simp [hempty, h]
    · simp only [if_neg hempty]
      unfold shutil_rmtree
      cases hl : fsLookup fs (strToPath s) with
      | none => simp [h]
      | some e =>
        cases e with
        | file c => simp [h]
        | dir => simp [fsLookup_deleteAll_none fs _ q h]

theorem andThen_ok (r : StResult Context) (f : Context → Fs → StResult Context)
    (h : r.res = .ok ()) : andThen r f = f r.st r.fs := by
  unfold andThen
  rw [h]

theorem andThen_err (r : StResult Context) (f : Context → Fs → StResult Context)
    (e : Err) (h : r.res = .error e) : andThen r f = r := by
  unfold andThen
  rw [h]

/-- C5: calling remove on a temporary resource copy before create has ever
succeeded raises the ValueError state-precondition error, and the
filesystem of the result is the input filesystem unchanged, so no removal
was attempted. -/
theorem C5_remove_before_create (t : TempResourceCopy) (fs : Fs)
    (h : t.filename = none) :
    t.remove fs = ⟨.error (.valueError "copy not created"), t, fs⟩ := by
  simp [TempResourceCopy.remove, h]

theorem C5_remove_before_create_witness :
    tr5w.remove [] = ⟨.error (.valueError "copy not created"), tr5w, []⟩ :=
  C5_remove_before_create tr5w [] rfl

/-- C10: after a successful removal the resource copy keeps its recorded
file name (the method never reassigns it), so a second remove attempts the
same deletion again and fails with the missing-file ENOENT error, not with
the state-precondition ValueError. -/
theorem C10_remove_keeps_handle (t : TempResourceCopy) (fs : Fs) (f : FsPath) (c : String)
    (hf : t.filename = some f) (hfs : fsLookup fs f = some (.file c)) :
    (t.remove fs).res = .ok ()
    ∧ (t.remove fs).st = t
    ∧ (t.remove ((t.remove fs).fs)).res = .error (.oserror .enoent)
    ∧ (t.remove ((t.remove fs).fs)).res ≠ .error (.valueError "copy not created") := by
  have h1 : t.remove fs = ⟨.ok (), t, fsErase fs f⟩ := by
    simp [TempResourceCopy.remove, hf, os_remove, hfs]
  have h4 : (t.remove fs).fs = fsErase fs f := by rw [h1]
  have h2 : fsLookup (fsErase fs f) f = none := fsLookup_erase_self fs f
  have h3 : t.remove (fsErase fs f) = ⟨.error (.oserror .enoent), t, fsErase fs f⟩ := by
    simp [TempResourceCopy.remove, hf, os_remove, h2]
  refine ⟨by rw [h1], by rw [h1], ?_, ?_⟩
  · rw [h4, h3]
  · rw [h4, h3]
    simp

theorem C10_remove_keeps_handle_witness :
    (tr10w.remove fs10w).res = .ok ()
    ∧ (tr10w.remove fs10w).st = tr10w
    ∧ (tr10w.remove ((tr10w.remove fs10w).fs)).res = .error (.oserror .enoent)
    ∧ (tr10w.remove ((tr10w.remove fs10w).fs)).res ≠ .error (.valueError "copy not created") :=
  C10_remove_keeps_handle tr10w fs10w ["srv", "m", "metalink.xml"] "<xml>" rfl rfl

/-- C6: removing an added temporary repository configuration issues exactly
the metadata-clean command line, which disables every repository and
re-enables only the fixed identifier; the command is issued inside the try
block, before the finally block deletes the file, so afterwards no file for
the configuration remains; on a successful run the handle is cleared; and
remove on a configuration that was never added raises the ValueError
state-precondition error. -/
theorem C6_repo_remove (t t2 : TempRepoConfig) (fs fs2 : Fs) (f : FsPath) (c : String)
    (cleanOk : Bool) (hf : t.filename = some f) (hfs : fsLookup fs f = some (.file c))
    (hf2 : t2.filename = none) :
    (t.remove fs cleanOk).cmds = [clean_metadata_cmd]
    ∧ clean_metadata_cmd =
        ["dnf", "--disablerepo=*", "--enablerepo=dnf-extra-tests", "--quiet", "clean", "metadata"]
    ∧ fsLookup (t.remove fs cleanOk).fs f = none
    ∧ (t.remove fs true).res = .ok ()
    ∧ (t.remove fs true).st.filename = none
    ∧ (t2.remove fs2 cleanOk).res = .error (.valueError "repository not present") := by
  have hrm : os_remove fs f = ⟨.ok (), fsErase fs f⟩ := by simp [os_remove, hfs]
  have h1 : t.remove fs cleanOk =
      ⟨if cleanOk then .ok () else .error .calledProcessError,
       { t with filename := none }, fsErase fs f, [clean_metadata_cmd]⟩ := by
    simp [TempRepoConfig.remove, hf, hrm]
  have h1t : t.remove fs true =
      ⟨.ok (), { t with filename := none }, fsErase fs f, [clean_metadata_cmd]⟩ := by
    simp [TempRepoConfig.remove, hf, hrm]
  refine ⟨by rw [h1], rfl, ?_, by rw [h1t], by rw [h1t], ?_⟩
  · have hfs_eq : (t.remove fs cleanOk).fs = fsErase fs f := by rw [h1]
    rw [hfs_eq]
    exact fsLookup_erase_self fs f
  · simp [TempRepoConfig.remove, hf2]

theorem C6_repo_remove_witness :
    (rp6w.remove fs6w false).cmds = [clean_metadata_cmd]
    ∧ clean_metadata_cmd =
        ["dnf", "--disablerepo=*", "--enablerepo=dnf-extra-tests", "--quiet", "clean", "metadata"]
    ∧ fsLookup (rp6w.remove fs6w false).fs ["etc", "yum.repos.d", "t.repo"] = none
    ∧ (rp6w.remove fs6w true).res = .ok ()
    ∧ (rp6w.remove fs6w true).st.filename = none
    ∧ (rp6w'.remove [] false).res = .error (.valueError "repository not present") :=
  C6_repo_remove rp6w rp6w' fs6w [] ["etc", "yum.repos.d", "t.repo"] "conf" false rfl rfl rfl

/-- C9: when the metadata-clean command fails during remove of an added
repository configuration, the finally block still deletes the
configuration file and clears the handle before the command error
propagates, so a further remove call, with either command outcome, raises
the repository-not-present ValueError instead of repeating the cleanup. -/
theorem C9_remove_clean_failure (t : TempRepoConfig) (fs : Fs) (f : FsPath) (c : String)
    (hf : t.filename = some f) (hfs : fsLookup fs f = some (.file c)) :
    (t.remove fs false).res = .error .calledProcessError
    ∧ (t.remove fs false).st.filename = none
    ∧ fsLookup (t.remove fs false).fs f = none
    ∧ ((t.remove fs false).st.remove ((t.remove fs false).fs) false).res
        = .error (.valueError "repository not present")
    ∧ ((t.remove fs false).st.remove ((t.remove fs false).fs) true).res
        = .error (.valueError "repository not present") := by
  have hrm : os_remove fs f = ⟨.ok (), fsErase fs f⟩ := by simp [os_remove, hfs]
  have h1 : t.remove fs false =
      ⟨.error .calledProcessError, { t with filename := none },
       fsErase fs f, [clean_metadata_cmd]⟩ := by
    simp [TempRepoConfig.remove, hf, hrm]
  have hst : (t.remove fs false).st = { t with filename := none } := by rw [h1]
  have hfs_eq : (t.remove fs false).fs = fsErase fs f := by rw [h1]
  refine ⟨by rw [h1], by rw [h1], ?_, ?_, ?_⟩
  · rw [hfs_eq]
    exact fsLookup_erase_self fs f
  · rw [hst]
    simp [TempRepoConfig.remove]
  · rw [hst]
    simp [TempRepoConfig.remove]

theorem C9_remove_clean_failure_witness :
    (rp6w.remove fs6w false).res = .error .calledProcessError
    ∧ (rp6w.remove fs6w false).st.filename = none
    ∧ fsLookup (rp6w.remove fs6w false).fs ["etc", "yum.repos.d", "t.repo"] = none
    ∧ ((rp6w.remove fs6w false).st.remove ((rp6w.remove fs6w false).fs) false).res
        = .error (.valueError "repository not present")
    ∧ ((rp6w.remove fs6w false).st.remove ((rp6w.remove fs6w false).fs) true).res
        = .error (.valueError "repository not present") :=
  C9_remove_clean_failure rp6w fs6w ["etc", "yum.repos.d", "t.repo"] "conf" rfl rfl

/-- C3: the repository-content assertion succeeds exactly when the
repository query, scoped by the assembled repoquery command line carrying
the identifier, install root, release version and configuration file,
returns an output whose lines equal, element by element and in the order
the query produced them, the package identifier listing loaded
independently from the on-disk directory. -/
theorem C3_repo_equals_dir (query : List String → Option (List String))
    (loadDir : String → Option (List String)) (repoid : String)
    (reporoot reporelease dnfconfig : Option String) (dirname msg : String) :
    test_repo_equals_dir query loadDir repoid reporoot reporelease dirname msg dnfconfig
      = .ok ()
    ↔ ∃ out nevras,
        query (run_repoquery_cmdline dnfconfig (some repoid) reporoot reporelease true)
          = some out
        ∧ loadDir dirname = some nevras ∧ out = nevras := by
  unfold test_repo_equals_dir
  cases hq : query (run_repoquery_cmdline dnfconfig (some repoid) reporoot reporelease true) with
  | none => simp
  | some out =>
    cases hd : loadDir dirname with
    | none => simp
    | some nevras =>
      by_cases he : out = nevras
      · simp [he]
      · simp [he]

theorem configure_rows_recognized (rows : List (String × String)) :
    ∀ ctx ctx2, configure_rows ctx rows = .ok ctx2 →
      ∀ r ∈ rows, r.1 ∈ (["--config", "--releasever", "--installroot"] : List String) := by
  induction rows with
  | nil =>
    intro ctx ctx2 h r hr
    exact absurd hr (List.not_mem_nil r)
  | cons a rest ih =>
    intro ctx ctx2 h r hr
    obtain ⟨o, v⟩ := a
    by_cases h1 : o = "--config"
    · simp only [configure_rows, if_pos h1] at h
      rcases List.mem_cons.mp hr with hr1 | hr1
      · subst hr1; simp [h1]
      · exact ih _ ctx2 h r hr1
    · by_cases h2 : o = "--releasever"
      · simp only [configure_rows, if_neg h1, if_pos h2] at h
        rcases List.mem_cons.mp hr with hr1 | hr1
        · subst hr1; simp [h2]
        · exact ih _ ctx2 h r hr1
      · by_cases h3 : o = "--installroot"
        · simp only [configure_rows, if_neg h1, if_neg h2, if_pos h3] at h
          rcases List.mem_cons.mp hr with hr1 | hr1
          · subst hr1; simp [h3]
          · exact ih _ ctx2 h r hr1
        · simp only [configure_rows, if_neg h1, if_neg h2, if_neg h3] at h
          exact absurd h (by simp)

/-- C8: the options-table step rejects a missing table with ValueError and
any headings other than Option and Value with NotImplementedError; a row
with option name config, releasever or installroot sets exactly the
corresponding context field; a row with any other option name raises
NotImplementedError; and whenever the step finishes normally every row
carried one of the three recognized option names, so no row is silently
skipped. -/
theorem C8_options_table (ctx : Context) (v : String) :
    configure_dnf_cli ctx none = .error (.valueError "table not found")
    ∧ (∀ hds rows, hds ≠ ["Option", "Value"] →
        configure_dnf_cli ctx (some ⟨hds, rows⟩) =
          .error (.notImplementedError "configuration format not supported"))
    ∧ configure_dnf_cli ctx (some ⟨["Option", "Value"], [("--config", v)]⟩) =
        .ok { ctx with config_option := some v }
    ∧ configure_dnf_cli ctx (some ⟨["Option", "Value"], [("--releasever", v)]⟩) =
        .ok { ctx with releasever_option := some v }
    ∧ configure_dnf_cli ctx (some ⟨["Option", "Value"], [("--installroot", v)]⟩) =
        .ok { ctx with installroot_option := some v }
    ∧ (∀ o, o ∉ (["--config", "--releasever", "--installroot"] : List String) →
        configure_dnf_cli ctx (some ⟨["Option", "Value"], [(o, v)]⟩) =
          .error (.notImplementedError "configuration not supported"))
    ∧ (∀ rows ctx2, configure_dnf_cli ctx (some ⟨["Option", "Value"], rows⟩) = .ok ctx2 →
        ∀ r ∈ rows, r.1 ∈ (["--config", "--releasever", "--installroot"] : List String)) := by
  refine ⟨rfl, ?_, rfl, rfl, rfl, ?_, ?_⟩
  · intro hds rows hne
    simp [configure_dnf_cli, hne]
  · intro o ho
    simp only [List.mem_cons, List.not_mem_nil, or_false, not_or] at ho
    obtain ⟨h1, h2, h3⟩ := ho
    simp [configure_dnf_cli, configure_rows, h1, h2, h3]
  · intro rows ctx2 hok
    simp only [configure_dnf_cli, if_pos rfl] at hok
    exact configure_rows_recognized rows ctx ctx2 hok

theorem C8_options_table_witness :
    configure_dnf_cli emptyCtx none = .error (.valueError "table not found")
    ∧ configure_dnf_cli emptyCtx (some ⟨["Opt"], []⟩) =
        .error (.notImplementedError "configuration format not supported")
    ∧ configure_dnf_cli emptyCtx (some ⟨["Option", "Value"], [("--config", "/c")]⟩) =
        .ok { emptyCtx with config_option := some "/c" }
    ∧ configure_dnf_cli emptyCtx (some ⟨["Option", "Value"], [("--quiet", "/c")]⟩) =
        .error (.notImplementedError "configuration not supported") := by
  refine ⟨(C8_options_table emptyCtx "/c").1, ?_, (C8_options_table emptyCtx "/c").2.2.1, ?_⟩
  · exact (C8_options_table emptyCtx "/c").2.1 ["Opt"] [] (by decide)
  · exact (C8_options_table emptyCtx "/c").2.2.2.2.2.1 "--quiet" (by decide)

/-- C7: the directory-creation helper succeeds without changing anything on
an existing directory when exist_ok is set; it fails with EEXIST on a path
that exists as a file, with either exist_ok value; it fails with EEXIST on
an existing directory when exist_ok is unset; and on an absent path with no
file among its ancestors it succeeds and afterwards the path and all of its
ancestors are directories. -/
theorem C7_makedirs (fs : Fs) (p q r : FsPath) (c : String)
    (hdir : fsLookup fs p = some .dir)
    (hfile : fsLookup fs q = some (.file c))
    (hnone : fsLookup fs r = none)
    (hanc : (strictAncestors r).any (fun a => isFileAt fs a) = false) :
    makedirs fs p true = ⟨.ok (), fs⟩
    ∧ (makedirs fs q true).res = .error (.oserror .eexist)
    ∧ (makedirs fs q false).res = .error (.oserror .eexist)
    ∧ (makedirs fs p false).res = .error (.oserror .eexist)
    ∧ (makedirs fs r true).res = .ok ()
    ∧ (strictAncestors r ++ [r]).all
        (fun a => fsLookup (makedirs fs r true).fs a == some Entry.dir) = true := by
  have hmk_p : os_makedirs fs p = ⟨.error (.oserror .eexist), fs⟩ := by
    simp [os_makedirs, hdir]
  have hmk_q : os_makedirs fs q = ⟨.error (.oserror .eexist), fs⟩ := by
    simp [os_makedirs, hfile]
  have hmk_r : os_makedirs fs r = ⟨.ok (), addDirs fs (strictAncestors r ++ [r])⟩ := by
    simp [os_makedirs, hnone, hanc]
  have hr_all : ∀ a ∈ strictAncestors r ++ [r],
      fsLookup (addDirs fs (strictAncestors r ++ [r])) a = some .dir := by
    apply addDirs_mem_dir
    intro a ha
    rcases List.mem_append.mp ha with ha1 | ha1
    · have hax : isFileAt fs a = false := by
        rcases List.any_eq_false.mp hanc a ha1 with h
        exact Bool.eq_false_iff.mpr h
      cases hl : fsLookup fs a with
      | none => exact Or.inl rfl
      | some e =>
        cases e with
        | dir => exact Or.inr rfl
        | file cc =>
          exfalso
          simp [isFileAt, hl] at hax
    · have ha2 : a = r := List.mem_singleton.mp ha1
      subst ha2
      exact Or.inl hnone
  refine ⟨?_, ?_, ?_, ?_, ?_, ?_⟩
  · simp [makedirs, hmk_p, hdir]
  · simp [makedirs, hmk_q, hfile]
  · simp [makedirs, hmk_q]
  · simp [makedirs, hmk_p]
  · simp [makedirs, hmk_r]
  · have hfs_eq : (makedirs fs r true).fs = addDirs fs (strictAncestors r ++ [r]) := by
      simp [makedirs, hmk_r]
    rw [hfs_eq, List.all_eq_true]
    intro a ha
    rw [beq_iff_eq]
    exact hr_all a ha

theorem C7_makedirs_witness :
    makedirs fs7w ["a"] true = ⟨.ok (), fs7w⟩
    ∧ (makedirs fs7w ["b"] true).res = .error (.oserror .eexist)
    ∧ (makedirs fs7w ["b"] false).res = .error (.oserror .eexist)
    ∧ (makedirs fs7w ["a"] false).res = .error (.oserror .eexist)
    ∧ (makedirs fs7w ["x", "y"] true).res = .ok ()
    ∧ (strictAncestors ["x", "y"] ++ [["x", "y"]]).all
        (fun a => fsLookup (makedirs fs7w ["x", "y"] true).fs a == some Entry.dir) = true :=
  C7_makedirs fs7w ["a"] ["b"] ["x", "y"] "z" rfl rfl rfl rfl

/-- C2 counterexample: with no backup to restore, a scenario holding a
temporary resource copy whose file is already gone and a temporary
repository configuration whose file is present, teardown raises ENOENT from
the resource-copy step; the repository configuration file is still on disk
afterwards and the handle still records it, even though removing it on the
same filesystem would have succeeded, so the later cleanup step was
prevented rather than attempted independently. -/
theorem C2_cleanup_counterexample :
    (after_scenario ctx2ce fs2ce true).res = .error (.oserror .enoent)
    ∧ fsLookup (after_scenario ctx2ce fs2ce true).fs ["etc", "yum.repos.d", "x.repo"]
        = some (.file "repo")
    ∧ (after_scenario ctx2ce fs2ce true).st.temp_repo = some rp2ce
    ∧ (rp2ce.remove fs2ce true).res = .ok () :=
  ⟨rfl, rfl, rfl, rfl⟩

/-- C2 as amended: the teardown statements run in source order with no
exception handling between them, so when the configuration-restore step
finishes normally and the temporary-resource step raises, the hook returns
that failure at once and the repository and install-root cleanup steps are
skipped entirely. -/
theorem C2_cleanup_aborts (ctx : Context) (fs : Fs) (cleanOk : Bool) (e : Err)
    (h1 : (restore_config_step ctx fs).res = .ok ())
    (h2 : (remove_resource_step (restore_config_step ctx fs).st
            (restore_config_step ctx fs).fs).res = .error e) :
    after_scenario ctx fs cleanOk =
      remove_resource_step (restore_config_step ctx fs).st (restore_config_step ctx fs).fs := by
  unfold after_scenario
  rw [andThen_ok _ _ h1]
  exact andThen_err _ _ e h2

theorem C2_cleanup_aborts_witness :
    after_scenario ctx2ce fs2ce true =
      remove_resource_step (restore_config_step ctx2ce fs2ce).st
        (restore_config_step ctx2ce fs2ce).fs :=
  C2_cleanup_aborts ctx2ce fs2ce true (.oserror .enoent) rfl rfl

/-- C4 counterexample: scenario setup finishes normally on a context whose
plugins-directory override is set, and leaves that override exactly as it
was instead of resetting it to the unset state. -/
theorem C4_pluginpath_counterexample :
    (before_scenario ctx4ce fs4ce ["etc", "dnf", "dnf.conf"] bak4).res = .ok ()
    ∧ (before_scenario ctx4ce fs4ce ["etc", "dnf", "dnf.conf"] bak4).st.pluginpath_option
        = some "/plug" :=
  ⟨rfl, rfl⟩

/-- C4 as amended: at scenario start the setup hook resets the temporary
resource handle, the temporary repository handle and the config, releasever
and installroot overrides to the unset state, records the backup, and
truncates the live configuration file to empty; the plugins-directory
override documented on the context is not touched. -/
theorem C4_before_scenario_resets (ctx : Context) (fs : Fs) (cfg b : FsPath) (c : String)
    (hcfg : fsLookup fs cfg = some (.file c)) (hb : b ≠ cfg) :
    (before_scenario ctx fs cfg b).res = .ok ()
    ∧ (before_scenario ctx fs cfg b).st.temp_resource = none
    ∧ (before_scenario ctx fs cfg b).st.temp_repo = none
    ∧ (before_scenario ctx fs cfg b).st.config_option = none
    ∧ (before_scenario ctx fs cfg b).st.releasever_option = none
    ∧ (before_scenario ctx fs cfg b).st.installroot_option = none
    ∧ (before_scenario ctx fs cfg b).st.pluginpath_option = ctx.pluginpath_option
    ∧ (before_scenario ctx fs cfg b).st.backupfn = some b
    ∧ fsLookup (before_scenario ctx fs cfg b).fs cfg = some (.file "") := by
  have h := before_scenario_eq ctx fs cfg b c hcfg hb
  rw [h]
  exact ⟨rfl, rfl, rfl, rfl, rfl, rfl, rfl, rfl, fsLookup_insert_self _ _ _⟩

theorem C4_before_scenario_resets_witness :
    (before_scenario ctx4ce fs4ce ["etc", "dnf", "dnf.conf"] bak4).res = .ok ()
    ∧ (before_scenario ctx4ce fs4ce ["etc", "dnf", "dnf.conf"] bak4).st.temp_resource = none
    ∧ (before_scenario ctx4ce fs4ce ["etc", "dnf", "dnf.conf"] bak4).st.temp_repo = none
    ∧ (before_scenario ctx4ce fs4ce ["etc", "dnf", "dnf.conf"] bak4).st.config_option = none
    ∧ (before_scenario ctx4ce fs4ce ["etc", "dnf", "dnf.conf"] bak4).st.releasever_option = none
    ∧ (before_scenario ctx4ce fs4ce ["etc", "dnf", "dnf.conf"] bak4).st.installroot_option = none
    ∧ (before_scenario ctx4ce fs4ce ["etc", "dnf", "dnf.conf"] bak4).st.pluginpath_option
        = ctx4ce.pluginpath_option
    ∧ (before_scenario ctx4ce fs4ce ["etc", "dnf", "dnf.conf"] bak4).st.backupfn = some bak4
    ∧ fsLookup (before_scenario ctx4ce fs4ce ["etc", "dnf", "dnf.conf"] bak4).fs
        ["etc", "dnf", "dnf.conf"] = some (.file "") :=
  C4_before_scenario_resets ctx4ce fs4ce ["etc", "dnf", "dnf.conf"] bak4 "orig" rfl (by decide)

theorem after_tail_pres (ctxB : Context) (fsB : Fs) (cfg b2 : FsPath) (c : String)
    (cleanOk : Bool)
    (hcfgB : fsLookup fsB cfg = some (.file c))
    (hbB : fsLookup fsB b2 = none)
    (hbkB : ctxB.backupfn = none)
    (hres : ∀ tr, ctxB.temp_resource = some tr → tr.filename ≠ some cfg)
    (hrepo : ∀ rp, ctxB.temp_repo = some rp → rp.filename ≠ some cfg)
    (hroot : ∀ s, ctxB.installroot_option = some s →
        (strToPath s).isPrefixOf cfg = false) :
    fsLookup (andThen (remove_resource_step ctxB fsB)
        (fun c2 f2 => andThen (remove_repo_step c2 f2 cleanOk) remove_root_step)).fs cfg
      = some (.file c)
    ∧ (andThen (remove_resource_step ctxB fsB)
        (fun c2 f2 => andThen (remove_repo_step c2 f2 cleanOk) remove_root_step)).st.backupfn
      = none
    ∧ fsLookup (andThen (remove_resource_step ctxB fsB)
        (fun c2 f2 => andThen (remove_repo_step c2 f2 cleanOk) remove_root_step)).fs b2
      = none := by
  have h2cfg : fsLookup (remove_resource_step ctxB fsB).fs cfg = some (.file c) :=
    (remove_resource_step_fs_pres ctxB fsB cfg hres).trans hcfgB
  have h2b : fsLookup (remove_resource_step ctxB fsB).fs b2 = none :=
    remove_resource_step_none_pres ctxB fsB b2 hbB
  cases h2 : (remove_resource_step ctxB fsB).res with
  | error e =>
    rw [andThen_err _ _ e h2]
    refine ⟨h2cfg, ?_, h2b⟩
    rw [remove_resource_step_st, hbkB]
  | ok u =>
    cases u
    have hstep : andThen (remove_resource_step ctxB fsB)
        (fun c2 f2 => andThen (remove_repo_step c2 f2 cleanOk) remove_root_step)
        = andThen (remove_repo_step ctxB (remove_resource_step ctxB fsB).fs cleanOk)
            remove_root_step := by
      rw [andThen_ok _ _ h2, remove_resource_step_st]
    rw [hstep]
    have h3cfg : fsLookup (remove_repo_step ctxB (remove_resource_step ctxB fsB).fs
        cleanOk).fs cfg = some (.file c) :=
      (remove_repo_step_fs_pres ctxB _ cleanOk cfg hrepo).trans h2cfg
    have h3b : fsLookup (remove_repo_step ctxB (remove_resource_step ctxB fsB).fs
        cleanOk).fs b2 = none :=
      remove_repo_step_none_pres ctxB _ cleanOk b2 h2b
    cases h3 : (remove_repo_step ctxB (remove_resource_step ctxB fsB).fs cleanOk).res with
    | error e =>
      rw [andThen_err _ _ e h3]
      refine ⟨h3cfg, ?_, h3b⟩
      rw [remove_repo_step_backupfn, hbkB]
    | ok u =>
      cases u
      rw [andThen_ok _ _ h3]
      have hroot3 : ∀ s, (remove_repo_step ctxB (remove_resource_step ctxB fsB).fs
          cleanOk).st.installroot_option = some s →
          (strToPath s).isPrefixOf cfg = false := by
        intro s hs
        rw [remove_repo_step_installroot] at hs
        exact hroot s hs
      refine ⟨(remove_root_step_fs_pres _ _ cfg hroot3).trans h3cfg, ?_,
        remove_root_step_none_pres _ _ b2 h3b⟩
      rw [remove_root_step_st, remove_repo_step_backupfn, hbkB]

/-- C1: when setup backed up the configuration file and teardown finishes
normally for a scenario whose body did not touch the backup file (its
content still is what setup read from the configuration file), did not
record the configuration file itself as a temporary resource or repository
file, and did not place the install root above the configuration file, then
afterwards the configuration file holds exactly the bytes it held before
setup ran, the backup file is gone, and the backup handle is reset to
None. -/
theorem C1_config_restored (ctx ctx2 : Context) (fs fs2 : Fs) (b : FsPath) (c : String)
    (cleanOk : Bool)
    (hcfg : fsLookup fs ctx2.configfn = some (.file c))
    (hfresh : b ≠ ctx2.configfn)
    (hbk : ctx2.backupfn = some b)
    (hbc : fsLookup fs2 b = fsLookup (before_scenario ctx fs ctx2.configfn b).fs b)
    (hres : ∀ tr, ctx2.temp_resource = some tr → tr.filename ≠ some ctx2.configfn)
    (hrepo : ∀ rp, ctx2.temp_repo = some rp → rp.filename ≠ some ctx2.configfn)
    (hroot : ∀ s, ctx2.installroot_option = some s →
        (strToPath s).isPrefixOf ctx2.configfn = false)
    (hok : (after_scenario ctx2 fs2 cleanOk).res = .ok ()) :
    fsLookup (after_scenario ctx2 fs2 cleanOk).fs ctx2.configfn = some (.file c)
    ∧ (after_scenario ctx2 fs2 cleanOk).st.backupfn = none
    ∧ fsLookup (after_scenario ctx2 fs2 cleanOk).fs b = none := by
  have hfs3 : (before_scenario ctx fs ctx2.configfn b).fs
      = fsInsert (fsInsert (fsInsert fs b (.file "")) b (.file c)) ctx2.configfn (.file "") := by
    rw [before_scenario_eq ctx fs ctx2.configfn b c hcfg hfresh]
  have hb2 : fsLookup fs2 b = some (.file c) := by
    rw [hbc, hfs3, fsLookup_insert_ne _ _ _ _ (Ne.symm hfresh), fsLookup_insert_self]
  have hr1 := restore_config_step_eq ctx2 fs2 b c hbk hfresh hb2
  have hAcfg : fsLookup (fsErase (fsInsert fs2 ctx2.configfn (.file c)) b) ctx2.configfn
      = some (.file c) := by
    rw [fsLookup_erase_ne _ _ _ (Ne.symm hfresh), fsLookup_insert_self]
  have hAb : fsLookup (fsErase (fsInsert fs2 ctx2.configfn (.file c)) b) b = none :=
    fsLookup_erase_self _ _
  have hAS : after_scenario ctx2 fs2 cleanOk =
      andThen (remove_resource_step { ctx2 with backupfn := none }
          (fsErase (fsInsert fs2 ctx2.configfn (.file c)) b))
        (fun c2 f2 => andThen (remove_repo_step c2 f2 cleanOk) remove_root_step) := by
    unfold after_scenario
    rw [hr1, andThen_ok _ _ rfl]
  rw [hAS]
  exact after_tail_pres { ctx2 with backupfn := none }
    (fsErase (fsInsert fs2 ctx2.configfn (.file c)) b) ctx2.configfn b c cleanOk
    hAcfg hAb rfl (fun tr htr => hres tr htr) (fun rp hrp => hrepo rp hrp)
    (fun s hs => hroot s hs)

theorem C1_config_restored_witness :
    fsLookup (after_scenario ctx1w fs1w true).fs (["etc", "dnf", "dnf.conf"] : FsPath)
      = some (.file "orig")
    ∧ (after_scenario ctx1w fs1w true).st.backupfn = none
    ∧ fsLookup (after_scenario ctx1w fs1w true).fs bak4 = none :=
  C1_config_restored emptyCtx ctx1w fs4ce fs1w bak4 "orig" true rfl (by decide) rfl rfl
    (fun tr htr => Option.noConfusion htr) (fun rp hrp => Option.noConfusion hrp)
    (fun s hs => Option.noConfusion hs) rfl
